import Mathlib

/-!
Verification of the GAMMA installer core (`launcher/core/gamma`) against its
specification. Python code is shallowly embedded: Python `str` values become
Lean `String`, byte strings become `List Nat` (each entry reduced mod 256
where it matters), and the effectful workflows become pure functions over
explicit inputs describing the environment (cached files, HTTP responses,
progress events). Each section names the Python source it embeds.
-/

namespace AOE

/-! ## Python string primitives

The Python string methods used by the sources (`str.lower`, `str.strip`,
`str.split`, `str.replace`, `str.endswith`, substring containment) are
embedded as executable functions over `String.data`, matching CPython's
behaviour on ASCII input.
-/

/-- Python's default whitespace set for `str.strip()`. -/
def pyIsSpace (c : Char) : Bool :=
  c = ' ' || c = '\t' || c = '\n' || c = '\x0d' || c = '\x0b' || c = '\x0c'

/-- Python `str.strip()`: drop leading and trailing whitespace. -/
def pyStrip (s : String) : String :=
  ⟨((s.data.dropWhile pyIsSpace).reverse.dropWhile pyIsSpace).reverse⟩

/-- Helper for `pySplit`; `fuel` bounds recursion by the input length. -/
def splitAux (sep : List Char) : Nat → List Char → List Char → List (List Char)
  | _, acc, [] => [acc.reverse]
  | 0, acc, l => [acc.reverse ++ l]
  | fuel + 1, acc, c :: rest =>
    if sep.isPrefixOf (c :: rest) then
      acc.reverse :: splitAux sep fuel [] ((c :: rest).drop sep.length)
    else
      splitAux sep fuel (c :: acc) rest

/-- Python `str.split(sep)` with an explicit non-empty separator. -/
def pySplit (s sep : String) : List String :=
  (splitAux sep.data s.data.length [] s.data).map String.mk

/-- Python `str.lower()` (ASCII case folding, as used on URLs and hex digests). -/
def pyLower (s : String) : String :=
  ⟨s.data.map Char.toLower⟩

/-- Helper for `pyReplace`; `fuel` bounds recursion by the input length. -/
def replaceAux (pat rep : List Char) : Nat → List Char → List Char
  | _, [] => []
  | 0, l => l
  | fuel + 1, c :: rest =>
    if pat ≠ [] ∧ pat.isPrefixOf (c :: rest) then
      rep ++ replaceAux pat rep fuel ((c :: rest).drop pat.length)
    else
      c :: replaceAux pat rep fuel rest

/-- Python `str.replace(pat, rep)`: replace every occurrence, left to right. -/
def pyReplace (s pat rep : String) : String :=
  ⟨replaceAux pat.data rep.data s.data.length s.data⟩

/-- Python `str.endswith(suffix)`. -/
def pyEndsWith (s suffix : String) : Bool :=
  suffix.data.isSuffixOf s.data

/-- Python's `pat in s` substring test. -/
def containsSub (s pat : String) : Bool :=
  s.data.tails.any (fun t => pat.data.isPrefixOf t)

/-! ## Hashing and verification

Embeds `ModDBDownloader.calculate_md5` and `ModDBDownloader.verify_hash`
(`launcher/core/gamma/moddb.py`, lines 183-214). The MD5 compression
function itself is a library call (`hashlib.md5`); it is kept abstract as a
parameter `md5 : List Nat → List Nat` from file bytes to digest bytes.
`hashlib`'s incremental `update` over a chunk sequence computes the digest
of the concatenation of the chunks, and `hexdigest()` is the lowercase hex
rendering of the digest bytes, which is the concrete `bytesToHex` below.
-/

/-- Lowercase hex digit character for a nibble value, as produced by
`hexdigest()`: `0`-`9` then `a`-`f`. -/
def hexChar (n : Nat) : Char :=
  if n < 10 then Char.ofNat ('0'.toNat + n)
  else if n < 16 then Char.ofNat ('a'.toNat + (n - 10))
  else '0'

/-- Hex character sequence of a byte string (two digits per byte). -/
def hexBytes (bs : List Nat) : List Char :=
  bs.flatMap (fun b => [hexChar (b % 256 / 16), hexChar (b % 16)])

/-- Lowercase hex string of a byte string: the model of `hexdigest()`. -/
def bytesToHex (bs : List Nat) : String := ⟨hexBytes bs⟩

/-- Helper for `chunksOf`; `fuel` bounds recursion by the input length. -/
def chunksOfAux (n : Nat) : Nat → List α → List (List α)
  | _, [] => []
  | 0, l => [l]
  | fuel + 1, l => l.take n :: chunksOfAux n fuel (l.drop n)

/-- The chunk sequence produced by `while chunk := f.read(n)` in
`calculate_md5`: successive blocks of at most `n` bytes. -/
def chunksOf (n : Nat) (l : List α) : List (List α) :=
  chunksOfAux n l.length l

/-- Embeds `calculate_md5` (moddb.py 183-199): stream the file in 8192-byte
chunks through an incrementally updated MD5 and render the digest in hex;
the incremental update digests the concatenation of the chunks. -/
def calculateMd5 (md5 : List Nat → List Nat) (content : List Nat) : String :=
  bytesToHex (md5 (chunksOf 8192 content).flatten)

/-- Embeds `verify_hash` (moddb.py 201-214):
`actual_hash == expected_hash.lower()` where `actual_hash` is
`calculate_md5` of the file. -/
def verifyHash (md5 : List Nat → List Nat) (content : List Nat)
    (expectedHash : String) : Bool :=
  calculateMd5 md5 content == pyLower expectedHash

theorem chunksOfAux_flatten (n : Nat) :
    ∀ (fuel : Nat) (l : List α), (chunksOfAux n fuel l).flatten = l := by
  intro fuel
  induction fuel with
  | zero => intro l; cases l <;> simp [chunksOfAux]
  | succ f ih =>
    intro l
    cases l with
    | nil => simp [chunksOfAux]
    | cons c rest =>
      simp only [chunksOfAux, List.flatten_cons, ih]
      exact List.take_append_drop n (c :: rest)

theorem chunksOf_flatten (n : Nat) (l : List α) : (chunksOf n l).flatten = l :=
  chunksOfAux_flatten n l.length l

theorem hexChar_toLower (n : Nat) : Char.toLower (hexChar n) = hexChar n := by
  rcases Nat.lt_or_ge n 16 with h | h
  · interval_cases n <;> decide
  · have hd : hexChar n = '0' := by
      unfold hexChar
      rw [if_neg (by omega), if_neg (by omega)]
    rw [hd]; decide

theorem pyLower_bytesToHex (bs : List Nat) :
    pyLower (bytesToHex bs) = bytesToHex bs := by
  unfold pyLower bytesToHex
  congr 1
  induction bs with
  | nil => rfl
  | cons b rest ih => simp [hexBytes, hexChar_toLower] at ih ⊢; exact ih

/-- Claim C9: `verify_hash(path, expected)` returns true exactly when the
streaming MD5 hex digest of the file equals `expected` up to hex-letter case
(both sides compared after lowercasing); the streamed, chunked digest equals
the digest of the whole content; and consequently
`verify_hash(path, calculate_md5(path))` is true for every readable file. -/
theorem c9_verify_hash_case_insensitive_roundtrip
    (md5 : List Nat → List Nat) (content : List Nat) (expectedHash : String) :
    calculateMd5 md5 content = bytesToHex (md5 content)
    ∧ (verifyHash md5 content expectedHash = true ↔
        pyLower (calculateMd5 md5 content) = pyLower expectedHash)
    ∧ verifyHash md5 content (calculateMd5 md5 content) = true := by
  have hcalc : calculateMd5 md5 content = bytesToHex (md5 content) := by
    unfold calculateMd5
    rw [chunksOf_flatten]
  have hlow : pyLower (calculateMd5 md5 content) = calculateMd5 md5 content := by
    rw [hcalc]; exact pyLower_bytesToHex _
  refine ⟨hcalc, ?_, ?_⟩
  · unfold verifyHash
    rw [beq_iff_eq, hlow]
  · unfold verifyHash
    rw [beq_iff_eq, hlow]

/-! ## ModDB download workflow

Embeds `ModDBDownloader.download_file` (moddb.py 216-279) and
`ModDBDownloader.download_mod` (moddb.py 281-340). Network interaction is
represented by explicit inputs: the HTTP response behaviour for a streaming
download, and flags describing the cached destination file. Effects are
reported in the result: the list of network operations performed, whether
the cached file was deleted, and whether the destination file exists when
the call returns or raises.
-/

/-- A logical network operation of `download_mod` (each wraps one or more
HTTP requests). -/
inductive NetOp where
  | scrapePage
  | mirrorFetch
  | fileDownload
deriving DecidableEq

/-- Behaviour of the streaming GET in `download_file`: connection failure
before any response, a non-2xx status (`raise_for_status`), or a body
streamed as chunks, optionally interrupted by a network error after the
listed chunks were written. -/
inductive HttpResp where
  | connFail
  | badStatus
  | body (chunks : List (List Nat)) (midError : Bool)

/-- Result classification of `download_file`. -/
inductive DlResult where
  | okDl
  | errHttp
  | errNet
  | errHash
deriving DecidableEq

/-- Embeds `download_file` (moddb.py 216-279) for one attempt. Returns the
result and whether the destination file exists afterwards (i.e. when the
call returns, or when the raised error reaches the caller).
`destExists` is the destination's state on entry; the `except` handler
deletes the file whenever it exists, and the hash-mismatch branch deletes
the fully written file before raising. -/
def downloadFileRun (md5 : List Nat → List Nat) (_destExists : Bool)
    (resp : HttpResp) (expectedMd5 : Option String) : DlResult × Bool :=
  match resp with
  | .connFail => (.errNet, false)
  | .badStatus => (.errHttp, false)
  | .body chunks midError =>
    if midError then (.errNet, false)
    else
      match expectedMd5 with
      | none => (.okDl, true)
      | some e =>
        if verifyHash md5 chunks.flatten e then (.okDl, true)
        else (.errHash, false)

/-- The tail of `download_mod` after the cache check (moddb.py 322-340):
scrape the info page when no expected hash is known and an info URL is
present, resolve the mirror, then stream the download. -/
def afterCacheCheck (infoUrl : String) (expectedMd5 : Option String)
    (deletedCache : Bool) (dlSuccess : Bool) : List NetOp × Bool × Bool :=
  ((if expectedMd5.isNone && infoUrl ≠ "" then [NetOp.scrapePage] else []) ++
    [NetOp.mirrorFetch, NetOp.fileDownload], deletedCache, dlSuccess)

/-- Embeds `download_mod` (moddb.py 281-340). `cachedContent` is the bytes
of the destination file when it exists. The result is
`(network operations performed, cached file deleted, success)`. -/
def downloadModRun (md5 : List Nat → List Nat) (infoUrl : String)
    (expectedMd5 : Option String) (useCached : Bool)
    (cachedContent : Option (List Nat)) (dlSuccess : Bool) :
    List NetOp × Bool × Bool :=
  match useCached, cachedContent with
  | true, some content =>
    match expectedMd5 with
    | some e =>
      if verifyHash md5 content e then ([], false, true)
      else afterCacheCheck infoUrl (some e) true dlSuccess
    | none => ([], false, true)
  | _, _ => afterCacheCheck infoUrl expectedMd5 false dlSuccess

/-- Claim C3: when the destination file already exists (and the cache is
consulted, as at every call site): a provided, matching expected hash gives
success with no network operation; no expected hash gives success with no
network operation; a mismatching hash deletes the cached file and proceeds
to the download. -/
theorem c3_download_mod_cache_check (md5 : List Nat → List Nat)
    (infoUrl e : String) (content : List Nat) (dlSuccess : Bool) :
    (verifyHash md5 content e = true →
      downloadModRun md5 infoUrl (some e) true (some content) dlSuccess
        = ([], false, true))
    ∧ downloadModRun md5 infoUrl none true (some content) dlSuccess
        = ([], false, true)
    ∧ (verifyHash md5 content e = false →
      (downloadModRun md5 infoUrl (some e) true (some content) dlSuccess).2.1
          = true
      ∧ NetOp.fileDownload ∈
        (downloadModRun md5 infoUrl (some e) true (some content) dlSuccess).1) := by
  refine ⟨fun h => ?_, ?_, fun h => ?_⟩
  · simp [downloadModRun, h]
  · simp [downloadModRun]
  · simp [downloadModRun, h, afterCacheCheck]

/-- Witness for C3 at concrete inputs: a digest function sending everything
to the byte `0`, cached content `[1]`, expected hashes `"00"` (match) and
`"ff"` (mismatch). -/
theorem c3_download_mod_cache_check_witness :
    downloadModRun (fun _ => [0]) "info" (some "00") true (some [1]) true
      = ([], false, true)
    ∧ (downloadModRun (fun _ => [0]) "info" (some "ff") true (some [1]) true).2.1
      = true
    ∧ NetOp.fileDownload ∈
      (downloadModRun (fun _ => [0]) "info" (some "ff") true (some [1]) true).1 := by
  refine ⟨?_, ?_, ?_⟩
  · exact (c3_download_mod_cache_check (fun _ => [0]) "info" "00" [1] true).1
      (by decide)
  · exact ((c3_download_mod_cache_check (fun _ => [0]) "info" "ff" [1] true).2.2
      (by decide)).1
  · exact ((c3_download_mod_cache_check (fun _ => [0]) "info" "ff" [1] true).2.2
      (by decide)).2

/-- Claim C4: whenever a streaming download attempt fails — non-2xx status,
network error (before or during the body), or MD5 mismatch of the fully
written file — the destination file does not exist when the error is raised
to the caller. -/
theorem c4_download_file_cleanup (md5 : List Nat → List Nat)
    (destExists : Bool) (resp : HttpResp) (expectedMd5 : Option String)
    (hfail : (downloadFileRun md5 destExists resp expectedMd5).1 ≠ .okDl) :
    (downloadFileRun md5 destExists resp expectedMd5).2 = false := by
  cases resp with
  | connFail => rfl
  | badStatus => rfl
  | body chunks midError =>
    cases midError with
    | true => rfl
    | false =>
      cases expectedMd5 with
      | none => exact absurd rfl hfail
      | some e =>
        by_cases hv : verifyHash md5 chunks.flatten e = true
        · exact absurd (by simp [downloadFileRun, hv]) hfail
        · simp [downloadFileRun, hv]

/-- Witness for C4 at a concrete input: a non-2xx response with a
pre-existing destination file. -/
theorem c4_download_file_cleanup_witness :
    (downloadFileRun (fun _ => [0]) true .badStatus none).2 = false :=
  c4_download_file_cleanup (fun _ => [0]) true .badStatus none (by decide)

/-! ## Archive layer

Embeds `detect_mod_structure` (archive.py 415-451) over a simple filesystem
tree model, and the progress-callback traces of the three extraction
back-ends (`extract_zip` archive.py 109-146, `extract_7z` native branch
archive.py 194-235, `_extract_with_7z` archive.py 237-285).
-/

/-- A directory entry: a subdirectory with its own entries, or a file. -/
inductive FsEntry where
  | dir (name : String) (children : List FsEntry)
  | file (name : String)

/-- Whether an entry is a directory (`d.is_dir()`). -/
def isDirEntry : FsEntry → Bool
  | .dir _ _ => true
  | .file _ => false

/-- Whether the listing contains a directory with the given name
(`(path / n).is_dir()`). -/
def hasSubdir (entries : List FsEntry) (n : String) : Bool :=
  entries.any fun e =>
    match e with
    | .dir m _ => m == n
    | .file _ => false

/-- The subdirectories of a listing
(`[d for d in path.iterdir() if d.is_dir()]`). -/
def subdirsOf (entries : List FsEntry) : List FsEntry :=
  entries.filter isDirEntry

/-- Result of `detect_mod_structure`: the extraction root itself, or the
named single subdirectory. -/
inductive ModRoot where
  | extractRoot
  | nestedDir (name : String)
deriving DecidableEq

/-- The final rule of `detect_mod_structure` (archive.py 442-451): return
the root when any of the directories `appdata`, `db`, `gamedata` is
present, else `None`. -/
def anomalyFolderCheck (entries : List FsEntry) : Option ModRoot :=
  if hasSubdir entries "appdata" || hasSubdir entries "db"
      || hasSubdir entries "gamedata" then
    some .extractRoot
  else
    none

/-- Embeds `detect_mod_structure` (archive.py 415-451). -/
def detectModStructure (entries : List FsEntry) : Option ModRoot :=
  if hasSubdir entries "gamedata" then some .extractRoot
  else
    match subdirsOf entries with
    | [FsEntry.dir d children] =>
      if hasSubdir children "gamedata" then some (.nestedDir d)
      else anomalyFolderCheck entries
    | _ => anomalyFolderCheck entries

theorem detect_eq_anomalyFolderCheck (entries : List FsEntry)
    (h1 : hasSubdir entries "gamedata" = false)
    (h2 : ∀ d children, subdirsOf entries = [FsEntry.dir d children] →
      hasSubdir children "gamedata" = false) :
    detectModStructure entries = anomalyFolderCheck entries := by
  simp only [detectModStructure, h1, Bool.false_eq_true, if_false]
  split
  next d children heq => rw [h2 d children heq]; simp
  next => rfl

/-- Claim C7: the layout detector checks its rules in order with first
match winning: the root itself if the root has a `gamedata` directory; the
unique subdirectory `d` if the root's only subdirectory is `d` and `d` has
a `gamedata` directory; the root if the root has any of the directories
`appdata`, `db`, `gamedata`; and `None` otherwise (in particular for a root
with several subdirectories, none of which triggers a rule). -/
theorem c7_detect_mod_structure_rules (entries : List FsEntry) :
    (hasSubdir entries "gamedata" = true →
      detectModStructure entries = some .extractRoot)
    ∧ (hasSubdir entries "gamedata" = false →
      ∀ d children, subdirsOf entries = [FsEntry.dir d children] →
      hasSubdir children "gamedata" = true →
      detectModStructure entries = some (.nestedDir d))
    ∧ (hasSubdir entries "gamedata" = false →
      (∀ d children, subdirsOf entries = [FsEntry.dir d children] →
        hasSubdir children "gamedata" = false) →
      (hasSubdir entries "appdata" = true ∨ hasSubdir entries "db" = true
        ∨ hasSubdir entries "gamedata" = true) →
      detectModStructure entries = some .extractRoot)
    ∧ (hasSubdir entries "gamedata" = false →
      hasSubdir entries "appdata" = false →
      hasSubdir entries "db" = false →
      (∀ d children, subdirsOf entries = [FsEntry.dir d children] →
        hasSubdir children "gamedata" = false) →
      detectModStructure entries = none) := by
  refine ⟨fun h1 => ?_, fun h1 d children hsub hnest => ?_,
    fun h1 h2 h3 => ?_, fun h1 h2 h3 h4 => ?_⟩
  · simp [detectModStructure, h1]
  · simp only [detectModStructure, h1, Bool.false_eq_true, if_false]
    rw [hsub]
    simp [hnest]
  · rw [detect_eq_anomalyFolderCheck entries h1 h2]
    rcases h3 with h | h | h
    · simp [anomalyFolderCheck, h]
    · simp [anomalyFolderCheck, h]
    · rw [h] at h1; cases h1
  · rw [detect_eq_anomalyFolderCheck entries h1 h4]
    simp [anomalyFolderCheck, h1, h2, h3]

/-- Witness for C7 at concrete inputs: a root containing `gamedata`
(rule 1), and an ambiguous root with two subdirectories, neither special
(rule 4). -/
theorem c7_detect_mod_structure_rules_witness :
    detectModStructure [FsEntry.dir "gamedata" []] = some .extractRoot
    ∧ detectModStructure [FsEntry.dir "f1" [], FsEntry.dir "f2" []] = none := by
  constructor
  · exact (c7_detect_mod_structure_rules [FsEntry.dir "gamedata" []]).1 (by decide)
  · refine (c7_detect_mod_structure_rules
      [FsEntry.dir "f1" [], FsEntry.dir "f2" []]).2.2.2 (by decide) (by decide)
      (by decide) ?_
    intro d children h
    have hs : subdirsOf [FsEntry.dir "f1" [], FsEntry.dir "f2" []]
        = [FsEntry.dir "f1" [], FsEntry.dir "f2" []] := rfl
    rw [hs] at h
    simp at h

/-- Progress-callback trace of `extract_zip` (archive.py 109-146): one call
`(i + 1, total)` after each of the `total` members, in order. -/
def extractZipCallbackCalls (members : List String) : List (Nat × Nat) :=
  (List.range members.length).map (fun i => (i + 1, members.length))

/-- Progress-callback trace of the native branch of `extract_7z`
(archive.py 214-227): a single call `(total, total)` after `extractall`,
where `total` counts the extracted filesystem items. -/
def py7zrCallbackCalls (itemCount : Nat) : List (Nat × Nat) :=
  [(itemCount, itemCount)]

/-- Progress-callback trace of `_extract_with_7z` (archive.py 237-285): a
single call `(total, total)` after the external binary finishes. -/
def sevenZipBinaryCallbackCalls (itemCount : Nat) : List (Nat × Nat) :=
  [(itemCount, itemCount)]

/-- Claim C8 counterexample: for a ZIP archive containing zero files, the
native ZIP back-end never invokes the progress observer, so the observer is
not called exactly once with `(total, total) = (0, 0)` as the claim
requires for zero-file archives. -/
theorem c8_empty_zip_counterexample :
    extractZipCallbackCalls [] = []
    ∧ ¬ ∃ i : Nat, (extractZipCallbackCalls [])[i]? = some (0, 0) := by
  refine ⟨rfl, ?_⟩
  rintro ⟨i, hi⟩
  simp [extractZipCallbackCalls] at hi

/-- Claim C8 (amended): the native ZIP back-end invokes the observer
exactly once per completed file — the `i`-th call being
`(i + 1, total)` — so for a non-empty archive the final call is
`(total, total)` and occurs exactly once, while for a zero-file ZIP the
observer is never invoked; the native-7z and external-7z back-ends invoke
the observer exactly once on successful completion, with `(total, total)`
over the count of extracted items (a single call even for multi-file
archives, and a `(0, 0)` call for empty ones). -/
theorem c8_extraction_progress_amended (members : List String)
    (h : members ≠ []) (itemCount : Nat) :
    (extractZipCallbackCalls members).length = members.length
    ∧ (∀ i, i < members.length →
        (extractZipCallbackCalls members)[i]? = some (i + 1, members.length))
    ∧ (extractZipCallbackCalls members).getLast?
        = some (members.length, members.length)
    ∧ (∀ i, i + 1 < members.length →
        (extractZipCallbackCalls members)[i]?
          ≠ some (members.length, members.length))
    ∧ extractZipCallbackCalls [] = []
    ∧ py7zrCallbackCalls itemCount = [(itemCount, itemCount)]
    ∧ sevenZipBinaryCallbackCalls itemCount = [(itemCount, itemCount)] := by
  obtain ⟨a, as, rfl⟩ : ∃ a as, members = a :: as := by
    cases members with
    | nil => exact absurd rfl h
    | cons a as => exact ⟨a, as, rfl⟩
  have hidx : ∀ i, i < (a :: as).length →
      (extractZipCallbackCalls (a :: as))[i]?
        = some (i + 1, (a :: as).length) := by
    intro i hi
    simp only [extractZipCallbackCalls, List.getElem?_map]
    rw [List.getElem?_range (by simpa using hi)]
    rfl
  refine ⟨by simp [extractZipCallbackCalls], hidx, ?_, fun i hi => ?_, rfl,
    rfl, rfl⟩
  · show ((List.range (as.length + 1)).map
      (fun i => (i + 1, (a :: as).length))).getLast? = _
    rw [List.range_succ, List.map_append]
    simp [List.getLast?_concat]
  · rw [hidx i (Nat.lt_of_succ_lt hi)]
    intro hcontr
    have : i + 1 = (a :: as).length := by
      simpa using congrArg (fun o => (Option.map Prod.fst o).getD 0) hcontr
    omega

/-- Witness for C8 (amended) at a concrete input: a one-file archive. -/
theorem c8_extraction_progress_amended_witness :
    (extractZipCallbackCalls ["a"]).length = 1
    ∧ (extractZipCallbackCalls ["a"]).getLast? = some (1, 1)
    ∧ py7zrCallbackCalls 0 = [(0, 0)] := by
  obtain ⟨h1, _, h3, _, _, h6, _⟩ :=
    c8_extraction_progress_amended ["a"] (by simp) 0
  exact ⟨h1, h3, h6⟩

/-! ## Manifest records and the mod pipeline

Embeds the record model (`models.py`), `ModRecord.from_tsv_line`
(models.py 131-177), the strategy selection of
`ModManager.extract_and_install_mod` (mod_manager.py 209-272) with the
FOMOD fallback of `_install_with_fomod` (mod_manager.py 274-299),
`ModManager.download_mod` (mod_manager.py 152-207),
`ModManager.install_mods_parallel` (mod_manager.py 422-566),
`MO2Manager.generate_modlist` (mo2.py 229-265), and the
`final_mod_names` / `total_mods` computations of `GammaInstaller.install`
(installer.py 433 and 491-496).
-/

/-- The `ModType` enumeration (models.py 84-98). -/
inductive ModType where
  | moddb
  | github
  | separatorMark
  | gammaLargeFile
deriving DecidableEq

/-- Fields of `DownloadableModRecord` (models.py 101-129, 216-246). -/
structure DownloadableModRecord where
  url : String
  instructions : String
  patch : String
  modName : String
  infoUrl : Option String
  archiveName : Option String
  md5Hash : Option String
  modType : ModType
  enabled : Bool
deriving DecidableEq

/-- A parsed maker-list record: `SeparatorRecord` (which has only
`mod_name` and `mod_type`) or `DownloadableModRecord`. -/
inductive ModRecord where
  | separatorRec (modName : String)
  | downloadableRec (r : DownloadableModRecord)
deriving DecidableEq

/-- Embeds `ModRecord.from_tsv_line` (models.py 131-177): strip, split on
tabs; a single field is a separator; otherwise classify by URL substring
(`moddb`, `github`, `gamma_large_files` on the lowercased URL, in that
order) and populate optional trailing fields with the code's defaults.
An unclassifiable URL raises `ValueError`. -/
def fromTsvLine (line : String) (enabled : Bool) : Except String ModRecord :=
  let parts := pySplit (pyStrip line) "\t"
  match parts with
  | [single] => .ok (.separatorRec single)
  | _ =>
    let url := parts.getD 0 ""
    let mkDl := fun (t : ModType) => ModRecord.downloadableRec
      ⟨url, parts.getD 1 "0", parts.getD 2 "", parts.getD 3 "Unknown",
        parts[4]?, parts[5]?, parts[6]?, t, enabled⟩
    if containsSub (pyLower url) "moddb" then .ok (mkDl .moddb)
    else if containsSub (pyLower url) "github" then .ok (mkDl .github)
    else if containsSub (pyLower url) "gamma_large_files" then
      .ok (mkDl .gammaLargeFile)
    else .error ("Unknown mod type for URL: " ++ url)

/-- Python attribute access `m.enabled`: `SeparatorRecord` (models.py
180-193) defines no `enabled` field, so the access raises
`AttributeError`, modelled as `none`. -/
def enabledAttr : ModRecord → Option Bool
  | .separatorRec _ => none
  | .downloadableRec r => some r.enabled

/-- The record's `mod_name` attribute (present on both variants). -/
def modNameOf : ModRecord → String
  | .separatorRec n => n
  | .downloadableRec r => r.modName

/-- Embeds `len([m for m in mod_records if m.enabled])` (installer.py 433);
`none` when the comprehension raises `AttributeError`. -/
def totalModsCalc (records : List ModRecord) : Option Nat :=
  (records.mapM enabledAttr).map (fun bs => (bs.filter id).length)

/-- Embeds the `final_mod_names` comprehension (installer.py 491-494):
`[m.mod_name for m in mod_records if m.enabled and m.mod_name not in
failed_names]`; `none` when it raises `AttributeError`. -/
def finalModNamesCalc (records : List ModRecord) (failedNames : List String) :
    Option (List String) :=
  (records.mapM (fun r => (enabledAttr r).map (fun e => (modNameOf r, e)))).map
    (fun pairs =>
      (pairs.filter (fun p => p.2 && !(failedNames.contains p.1))).map
        Prod.fst)

/-- Embeds `MO2Manager.generate_modlist` (mo2.py 229-265): one line per
name, `*`-prefixed when the name ends in `_separator`, otherwise prefixed
with `enabled_pattern` (the default `"+"`). -/
def generateModlist (modNames : List String) (enabledPattern : String) :
    List String :=
  modNames.map (fun n =>
    if pyEndsWith n "_separator" then "*" ++ n else enabledPattern ++ n)

/-- Claim C1 (code evidence at the failing input, the maker-list separator
line `=== CORE ===` from spec scenario S1): the line parses to
`SeparatorRecord` whose `mod_name` is the bare `=== CORE ===`;
`install()`'s `total_mods` and `final_mod_names` comprehensions then raise
`AttributeError` (`SeparatorRecord` has no `enabled`), sending the run to
`Failed`; and even granting separators an enabled flag, `generate_modlist`
emits `+=== CORE ===` — never the required `*=== CORE ===_separator` line,
because the record name does not end in `_separator`. -/
theorem c1_separator_modlist_divergence :
    fromTsvLine "=== CORE ===" true = .ok (.separatorRec "=== CORE ===")
    ∧ totalModsCalc [.separatorRec "=== CORE ==="] = none
    ∧ finalModNamesCalc [.separatorRec "=== CORE ==="] [] = none
    ∧ generateModlist ["=== CORE ==="] "+" = ["+=== CORE ==="]
    ∧ "*=== CORE ===_separator" ∉ generateModlist ["=== CORE ==="] "+" := by
  refine ⟨rfl, rfl, rfl, by decide, by decide⟩

/-- An installation strategy chosen by `extract_and_install_mod`. -/
inductive InstallMethod where
  | fomodMethod (directives : List (String × String))
  | instructionMethod (folders : List String)
  | autoDetectMethod
deriving DecidableEq

/-- The source folders acted on by `_install_with_instructions`
(mod_manager.py 301-334): split on `:`, strip each entry, skip empties. -/
def instructionFolders (ins : String) : List String :=
  ((pySplit ins ":").map pyStrip).filter (fun f => f ≠ "")

/-- Embeds the strategy dispatch of `extract_and_install_mod`
(mod_manager.py 249-261) composed with the empty-directives fallback of
`_install_with_fomod` (mod_manager.py 285-288). `hasFomod` is
`(temp_path / "fomod" / "ModuleConfig.xml").exists()`; `directives` is the
result of `FOMODParser.parse_fomod`, which returns `[]` on XML parse
errors (archive.py 365-367). -/
def selectInstallMethod (hasFomod : Bool)
    (directives : List (String × String)) (instructions : String) :
    InstallMethod :=
  if hasFomod then
    if directives.isEmpty then .autoDetectMethod else .fomodMethod directives
  else if instructions ≠ "" && instructions ≠ "0" then
    .instructionMethod (instructionFolders instructions)
  else .autoDetectMethod

/-- Claim C6: strategy selection order — FOMOD when
`fomod/ModuleConfig.xml` is present (falling back to auto-detection when
parsing yields an empty directive list), else the instruction strategy
when `instructions` is non-empty and not `"0"` (splitting on `:`), else
auto-detection. -/
theorem c6_strategy_selection (hasFomod : Bool)
    (directives : List (String × String)) (ins : String) :
    (hasFomod = true → directives ≠ [] →
      selectInstallMethod hasFomod directives ins = .fomodMethod directives)
    ∧ (hasFomod = true → directives = [] →
      selectInstallMethod hasFomod directives ins = .autoDetectMethod)
    ∧ (hasFomod = false → ins ≠ "" → ins ≠ "0" →
      selectInstallMethod hasFomod directives ins
        = .instructionMethod (((pySplit ins ":").map pyStrip).filter
            (fun f => f ≠ "")))
    ∧ (hasFomod = false → (ins = "" ∨ ins = "0") →
      selectInstallMethod hasFomod directives ins = .autoDetectMethod) := by
  refine ⟨fun h1 h2 => ?_, fun h1 h2 => ?_, fun h1 h2 h3 => ?_,
    fun h1 h2 => ?_⟩
  · simp [selectInstallMethod, h1, h2]
  · simp [selectInstallMethod, h1, h2]
  · simp [selectInstallMethod, h1, h2, h3, instructionFolders]
  · rcases h2 with h2 | h2 <;> simp [selectInstallMethod, h1, h2]

/-- Witness for C6 at concrete inputs: spec scenario S3's
`instructions = "addon1:addon2"`, and an empty-directives FOMOD archive. -/
theorem c6_strategy_selection_witness :
    selectInstallMethod false [] "addon1:addon2"
      = .instructionMethod ["addon1", "addon2"]
    ∧ selectInstallMethod true [] "0" = .autoDetectMethod := by
  constructor
  · have h := (c6_strategy_selection false [] "addon1:addon2").2.2.1 rfl
      (by decide) (by decide)
    rw [h]
    decide
  · exact (c6_strategy_selection true [] "0").2.1 rfl rfl

/-- Embeds `ModManager.download_mod` (mod_manager.py 152-207). Returns
`(success, used the ModDB workflow, used the direct download)`. The ModDB
and GitHub branches delegate to the respective fetcher, whose outcome is
the corresponding argument; any other `mod_type` — in particular
`GAMMA_LARGE_FILE` — logs a warning and returns `False` without invoking
either fetcher. -/
def downloadModDispatch (r : DownloadableModRecord)
    (moddbOk githubOk : Bool) : Bool × Bool × Bool :=
  match r.modType with
  | .moddb => (moddbOk, true, false)
  | .github => (githubOk, false, true)
  | _ => (false, false, false)

/-- Download success of a record in the pipeline, with `netOk` abstracting
fetcher outcomes. -/
def downloadAttempt (netOk : DownloadableModRecord → Bool)
    (r : DownloadableModRecord) : Bool :=
  (downloadModDispatch r (netOk r) (netOk r)).1

/-- Embeds `install_mods_parallel` (mod_manager.py 422-566), sequentially
(worker completion order only permutes the failure list; the claims here
are order-insensitive). Phase 1 downloads the enabled downloadable
records; failures join the failed list. Phase 2 installs the downloaded
records (`installOk` abstracts extraction/installation success). Phase 3
materialises every separator (`sepOk` abstracts filesystem success).
Returns `(successful, failed, failed_mod_names)`. -/
def installModsParallel (mods : List ModRecord)
    (netOk installOk : DownloadableModRecord → Bool)
    (sepOk : String → Bool) : Nat × Nat × List String :=
  let downloadableMods := mods.filterMap (fun m =>
    match m with
    | .downloadableRec r => if r.enabled then some r else none
    | .separatorRec _ => none)
  let separators := mods.filterMap (fun m =>
    match m with
    | .separatorRec n => some n
    | .downloadableRec _ => none)
  let downloaded := downloadableMods.filter (downloadAttempt netOk)
  let failedDl := (downloadableMods.filter
    (fun r => !(downloadAttempt netOk r))).map (fun r => r.modName)
  let failedIn := (downloaded.filter (fun r => !(installOk r))).map
    (fun r => r.modName)
  let failedSep := separators.filter (fun n => !(sepOk n))
  ((downloaded.filter installOk).length + (separators.filter sepOk).length,
    failedDl.length + failedIn.length + failedSep.length,
    failedDl ++ failedIn ++ failedSep)

/-- Claim C10: a record classified `GAMMA_LARGE_FILE` (URL containing
`gamma_large_files`) fails the download stage without either fetcher being
invoked, and every enabled record of that kind has its display name in the
failed-mod list returned by the pipeline. -/
theorem c10_large_file_records_fail (mods : List ModRecord)
    (netOk installOk : DownloadableModRecord → Bool) (sepOk : String → Bool)
    (r : DownloadableModRecord)
    (hmem : ModRecord.downloadableRec r ∈ mods) (hen : r.enabled = true)
    (hty : r.modType = .gammaLargeFile) :
    (∀ b1 b2, downloadModDispatch r b1 b2 = (false, false, false))
    ∧ r.modName ∈ (installModsParallel mods netOk installOk sepOk).2.2 := by
  constructor
  · intro b1 b2
    simp [downloadModDispatch, hty]
  · have hdl : r ∈ mods.filterMap (fun m =>
        match m with
        | .downloadableRec r => if r.enabled then some r else none
        | .separatorRec _ => none) := by
      refine List.mem_filterMap.mpr ⟨.downloadableRec r, hmem, ?_⟩
      simp [hen]
    have hfail : downloadAttempt netOk r = false := by
      simp [downloadAttempt, downloadModDispatch, hty]
    simp only [installModsParallel]
    refine List.mem_append.mpr (Or.inl (List.mem_append.mpr (Or.inl ?_)))
    exact List.mem_map.mpr ⟨r, List.mem_filter.mpr ⟨hdl, by simp [hfail]⟩, rfl⟩

/-- Witness for C10 at a concrete input: one enabled large-file-repo
record. -/
theorem c10_large_file_records_fail_witness :
    (∀ b1 b2, downloadModDispatch
      ⟨"https://github.com/Grokitach/gamma_large_files_v2", "0", "",
        "Big Mod", none, none, none, .gammaLargeFile, true⟩ b1 b2
      = (false, false, false))
    ∧ "Big Mod" ∈ (installModsParallel
        [.downloadableRec ⟨"https://github.com/Grokitach/gamma_large_files_v2",
          "0", "", "Big Mod", none, none, none, .gammaLargeFile, true⟩]
        (fun _ => true) (fun _ => true) (fun _ => true)).2.2 :=
  c10_large_file_records_fail _ (fun _ => true) (fun _ => true)
    (fun _ => true) _ (by simp) rfl rfl

/-! ## Anomaly base-game installer

Embeds `AnomalyInstaller.patch_user_ltx` (anomaly.py 215-268) and the
user-config effect of `AnomalyInstaller.install` (anomaly.py 270-324),
tracking only the content of `appdata/user.ltx` (`none` when the file does
not exist).
-/

/-- Embeds `patch_user_ltx` (anomaly.py 215-268): missing file → no
change; `preserve_existing` → no change; otherwise rewrite the file, with
the fullscreen → borderless substitution applied exactly when `wine_mode`
is set. -/
def patchUserLtx (preserveExisting wineMode : Bool)
    (userLtx : Option String) : Option String :=
  match userLtx with
  | none => none
  | some content =>
    if preserveExisting then some content
    else
      some (if wineMode then
        pyReplace content "rs_screenmode fullscreen" "rs_screenmode borderless"
      else content)

/-- Embeds the user-config effect of `install` (anomaly.py 270-324).
When `skip_if_valid` holds and verification passes, the existing file is
untouched; otherwise the installation is replaced from the archive
(`extract_anomaly` removes `anomaly_path` and moves the extracted game
directory in), after which `patch_user_ltx` is invoked with
`preserve_existing=False` hardwired (anomaly.py 322). The first parameter
models `GammaConfig.preserve_user_ltx`; neither `install` nor the
orchestrator ever consults it, which this definition makes explicit by
ignoring it. -/
def anomalyInstallUserLtx (_cfgPreserveUserLtx : Bool)
    (skipIfValid verified wineMode : Bool)
    (currentUserLtx archiveUserLtx : Option String) : Option String :=
  if skipIfValid && verified then currentUserLtx
  else patchUserLtx false wineMode archiveUserLtx

/-- Claim C5 (code evidence at the failing input): with
`preserve_user_ltx` set, wine mode on, and a fresh install whose archive
ships `user.ltx` containing `rs_screenmode fullscreen`, `install()` still
performs the substitution — the preserve flag has no effect at all on the
result (it is never threaded into `patch_user_ltx`, which `install` calls
with `preserve_existing=False`), so the user config is not left
unchanged. -/
theorem c5_preserve_user_ignored_divergence :
    anomalyInstallUserLtx true true false true
        (some "rs_screenmode fullscreen") (some "rs_screenmode fullscreen")
      = some "rs_screenmode borderless"
    ∧ (∀ p q : Bool,
        anomalyInstallUserLtx p true false true
          (some "rs_screenmode fullscreen") (some "rs_screenmode fullscreen")
        = anomalyInstallUserLtx q true false true
          (some "rs_screenmode fullscreen") (some "rs_screenmode fullscreen"))
    ∧ some "rs_screenmode borderless" ≠ some "rs_screenmode fullscreen" := by
  refine ⟨by decide, fun p q => rfl, by decide⟩

/-! ## Orchestrator progress trace

Embeds the sequence of `overall_progress` values delivered to the state
observer during `GammaInstaller.install` (installer.py 310-531), via
`_update_state` (installer.py 83-112). A `RunScript` records the inputs
that drive the progress callbacks: whether the Anomaly and MO2 bodies run,
the `(downloaded, total)` byte events their download/extract callbacks
receive (installer.py 352-367 and 386-400) — a retried download restarts
this byte counter — and the completed-counts seen by the mod download and
install callbacks (installer.py 435-458) against `total_mods`. Snapshots
that do not change `overall_progress` (operation-only updates, warnings,
errors) repeat the previous value and are omitted; the trace lists each
distinct assignment in program order: 0 at start and in
`check_requirements`, 0.05 and the byte-driven values for Anomaly, 0.15
and the byte-driven values for MO2, 0.2 in `clone_gamma_repos`, 0.25 at
manifest parse, the count-driven values for mod download and install,
0.90, 0.95, and finally 1.0 in the `Completed` update. A failure truncates
the trace (the `Failed` and error snapshots repeat the last value); the
model assumes the observer callback itself does not raise. -/

/-- The `downloaded / total if total > 0 else 0` fraction used by every
progress callback in `install` (installer.py 353, 361, 387, 395, 441,
452). -/
def progressFrac (d t : Nat) : ℚ :=
  if 0 < t then (d : ℚ) / (t : ℚ) else 0

/-- The `overall_progress` values produced by one callback family:
`base + fraction * scale` per event. -/
def progressSeg (base scale : ℚ) (events : List (Nat × Nat)) : List ℚ :=
  events.map (fun e => base + progressFrac e.1 e.2 * scale)

/-- The observable inputs of one `install()` run (see section comment). -/
structure RunScript where
  anomalyNeeded : Bool
  anomalyDl : List (Nat × Nat)
  anomalyEx : List (Nat × Nat)
  mo2Needed : Bool
  mo2Dl : List (Nat × Nat)
  mo2Ex : List (Nat × Nat)
  totalMods : Nat
  modsDl : List Nat
  modsIn : List Nat

/-- All `overall_progress` assignments of a run, in program order, up to
but excluding the final `Completed` assignment. -/
def happyBody (r : RunScript) : List ℚ :=
  [0, 0]
  ++ (if r.anomalyNeeded then
        [1/20] ++ progressSeg (1/20) (1/20) r.anomalyDl
          ++ progressSeg (1/10) (1/20) r.anomalyEx
      else [])
  ++ (if r.mo2Needed then
        [3/20] ++ progressSeg (3/20) (3/100) r.mo2Dl
          ++ progressSeg (9/50) (1/50) r.mo2Ex
      else [])
  ++ [1/5, 1/4]
  ++ progressSeg (1/4) (7/20) (r.modsDl.map (fun c => (c, r.totalMods)))
  ++ progressSeg (3/5) (1/4) (r.modsIn.map (fun c => (c, r.totalMods)))
  ++ [9/10, 19/20]

/-- The `overall_progress` assignments of a run that reaches `Completed`
(installer.py 509-513 sets 1.0 last). -/
def happyOveralls (r : RunScript) : List ℚ := happyBody r ++ [1]

/-- Outcome of a run: `Completed`, or an exception interrupting the body
after `k` progress assignments (the `Failed` transition itself changes no
progress value). -/
inductive RunOutcome where
  | completed
  | failed (k : Nat)
deriving DecidableEq

/-- The `overall_progress` values delivered to the observer over a run. -/
def overallTrace (r : RunScript) : RunOutcome → List ℚ
  | .completed => happyOveralls r
  | .failed k => (happyOveralls r).take (min k (happyBody r).length)

/-- The return value of `install()` (installer.py 518, 524, 531). -/
def installReturns : RunOutcome → Bool
  | .completed => true
  | .failed _ => false

/-- Claim C2 counterexample: in a run whose Anomaly download delivers 100
of 200 bytes, fails, and is retried by the `download_file` retry policy
(moddb.py 216-219), the byte counter restarts and `overall_progress`
drops from 0.05 + (100/200)·0.05 = 0.075 to 0.05 + (50/200)·0.05 =
0.0625: the callback sequence of this single run is not monotone
non-decreasing even though the run ends in `Completed`. -/
theorem c2_progress_monotone_counterexample :
    ¬ List.Chain' (· ≤ ·) (overallTrace
      ⟨true, [(100, 200), (50, 200)], [], false, [], [], 0, [], []⟩
      .completed) := by
  intro h
  have ht : overallTrace
      ⟨true, [(100, 200), (50, 200)], [], false, [], [], 0, [], []⟩
      .completed
      = [0, 0, 1/20, 3/40, 1/16, 1/5, 1/4, 9/10, 19/20, 1] := by
    norm_num [overallTrace, happyOveralls, happyBody, progressSeg,
      progressFrac]
  rw [ht] at h
  simp only [List.chain'_cons, List.chain'_singleton, and_true] at h
  have hbad : (3/40 : ℚ) ≤ 1/16 := h.2.2.2.1
  norm_num at hbad

/-- A progress-event list whose fractions are non-decreasing (no retry
reset). -/
def FracMono (events : List (Nat × Nat)) : Prop :=
  List.Chain' (fun a b => progressFrac a.1 a.2 ≤ progressFrac b.1 b.2) events

/-- A progress-event list whose byte counts never exceed the reported
totals. -/
def FracBounded (events : List (Nat × Nat)) : Prop :=
  ∀ e ∈ events, e.1 ≤ e.2

/-- A list that is non-decreasing with all elements in `[lo, hi]`. -/
def BddSorted (lo hi : ℚ) (l : List ℚ) : Prop :=
  List.Chain' (· ≤ ·) l ∧ ∀ x ∈ l, lo ≤ x ∧ x ≤ hi

theorem progressFrac_nonneg (d t : Nat) : 0 ≤ progressFrac d t := by
  unfold progressFrac
  split
  · positivity
  · exact le_refl 0

theorem progressFrac_le_one {d t : Nat} (h : d ≤ t) : progressFrac d t ≤ 1 := by
  unfold progressFrac
  split
  next ht => exact div_le_one_of_le₀ (by exact_mod_cast h) (by positivity)
  next => norm_num

theorem progressFrac_mono {c cc : Nat} (t : Nat) (h : c ≤ cc) :
    progressFrac c t ≤ progressFrac cc t := by
  unfold progressFrac
  split
  next ht =>
    have htq : (0 : ℚ) < t := by exact_mod_cast ht
    exact (div_le_div_iff_of_pos_right htq).mpr (by exact_mod_cast h)
  next => exact le_refl 0

theorem bddSorted_nil (lo hi : ℚ) : BddSorted lo hi [] :=
  ⟨List.chain'_nil, by simp⟩

theorem bddSorted_single {lo hi x : ℚ} (h1 : lo ≤ x) (h2 : x ≤ hi) :
    BddSorted lo hi [x] := by
  refine ⟨List.chain'_singleton x, fun y hy => ?_⟩
  rcases List.mem_singleton.mp hy with rfl
  exact ⟨h1, h2⟩

theorem bddSorted_pair {lo hi x y : ℚ} (hxy : x ≤ y) (h1 : lo ≤ x)
    (h2 : y ≤ hi) : BddSorted lo hi [x, y] := by
  refine ⟨?_, fun z hz => ?_⟩
  · simp [List.chain'_cons, hxy]
  · rcases List.mem_cons.mp hz with rfl | hz
    · exact ⟨h1, le_trans hxy h2⟩
    · rcases List.mem_singleton.mp hz with rfl
      exact ⟨le_trans h1 hxy, h2⟩

theorem bddSorted_append {lo m1 m2 hi : ℚ} {l1 l2 : List ℚ}
    (h1 : BddSorted lo m1 l1) (h2 : BddSorted m2 hi l2)
    (hlo : lo ≤ m1) (hm : m1 ≤ m2) (hhi : m2 ≤ hi) :
    BddSorted lo hi (l1 ++ l2) := by
  refine ⟨?_, fun x hx => ?_⟩
  · rw [List.chain'_append]
    refine ⟨h1.1, h2.1, fun x hx y hy => ?_⟩
    have hx1 : x ∈ l1 := by
      obtain ⟨hne, rfl⟩ := List.mem_getLast?_eq_getLast hx
      exact List.getLast_mem hne
    have hy1 : y ∈ l2 := by
      rw [List.eq_cons_of_mem_head? hy]
      exact List.mem_cons_self _ _
    calc x ≤ m1 := (h1.2 x hx1).2
      _ ≤ m2 := hm
      _ ≤ y := (h2.2 y hy1).1
  · rcases List.mem_append.mp hx with h | h
    · exact ⟨(h1.2 x h).1, le_trans (h1.2 x h).2 (le_trans hm hhi)⟩
    · exact ⟨le_trans hlo (le_trans hm (h2.2 x h).1), (h2.2 x h).2⟩

theorem BddSorted.weaken {lo hi lo2 hi2 : ℚ} {l : List ℚ}
    (h : BddSorted lo hi l) (h1 : lo2 ≤ lo) (h2 : hi ≤ hi2) :
    BddSorted lo2 hi2 l :=
  ⟨h.1, fun x hx => ⟨le_trans h1 (h.2 x hx).1, le_trans (h.2 x hx).2 h2⟩⟩

theorem bddSorted_seg (base scale : ℚ) (hs : 0 ≤ scale)
    (events : List (Nat × Nat)) (hm : FracMono events)
    (hb : FracBounded events) :
    BddSorted base (base + scale) (progressSeg base scale events) := by
  refine ⟨?_, fun x hx => ?_⟩
  · unfold progressSeg
    refine List.chain'_map_of_chain' _ ?_ hm
    intro a b hab
    have := mul_le_mul_of_nonneg_right hab hs
    linarith
  · obtain ⟨e, he, rfl⟩ := List.mem_map.mp hx
    have h0 := progressFrac_nonneg e.1 e.2
    have h1 := progressFrac_le_one (hb e he)
    constructor
    · nlinarith
    · nlinarith

theorem happyBody_bddSorted (r : RunScript)
    (h1 : FracMono r.anomalyDl) (hb1 : FracBounded r.anomalyDl)
    (h2 : FracMono r.anomalyEx) (hb2 : FracBounded r.anomalyEx)
    (h3 : FracMono r.mo2Dl) (hb3 : FracBounded r.mo2Dl)
    (h4 : FracMono r.mo2Ex) (hb4 : FracBounded r.mo2Ex)
    (h5 : List.Chain' (· ≤ ·) r.modsDl)
    (hb5 : ∀ c ∈ r.modsDl, c ≤ r.totalMods)
    (h6 : List.Chain' (· ≤ ·) r.modsIn)
    (hb6 : ∀ c ∈ r.modsIn, c ≤ r.totalMods) :
    BddSorted 0 (19/20) (happyBody r) := by
  have segMono : ∀ (l : List Nat), List.Chain' (· ≤ ·) l →
      FracMono (l.map (fun c => (c, r.totalMods))) := by
    intro l hl
    unfold FracMono
    rw [List.chain'_map]
    exact hl.imp (fun a b hab => progressFrac_mono _ hab)
  have segBnd : ∀ (l : List Nat), (∀ c ∈ l, c ≤ r.totalMods) →
      FracBounded (l.map (fun c => (c, r.totalMods))) := by
    intro l hl e he
    obtain ⟨c, hc, rfl⟩ := List.mem_map.mp he
    exact hl c hc
  have hA : BddSorted (1/20) (3/20)
      (if r.anomalyNeeded then
        [1/20] ++ progressSeg (1/20) (1/20) r.anomalyDl
          ++ progressSeg (1/10) (1/20) r.anomalyEx
      else []) := by
    split
    · have s1 := bddSorted_seg (1/20) (1/20) (by norm_num) _ h1 hb1
      have s2 := bddSorted_seg (1/10) (1/20) (by norm_num) _ h2 hb2
      have p01 := bddSorted_append (bddSorted_single (le_refl (1/20 : ℚ))
        (le_refl (1/20 : ℚ))) s1 le_rfl le_rfl (by norm_num)
      exact (bddSorted_append p01 s2 (by norm_num) (by norm_num)
        (by norm_num)).weaken le_rfl (by norm_num)
    · exact bddSorted_nil _ _
  have hM : BddSorted (3/20) (1/5)
      (if r.mo2Needed then
        [3/20] ++ progressSeg (3/20) (3/100) r.mo2Dl
          ++ progressSeg (9/50) (1/50) r.mo2Ex
      else []) := by
    split
    · have s1 := bddSorted_seg (3/20) (3/100) (by norm_num) _ h3 hb3
      have s2 := bddSorted_seg (9/50) (1/50) (by norm_num) _ h4 hb4
      have p01 := bddSorted_append (bddSorted_single (le_refl (3/20 : ℚ))
        (le_refl (3/20 : ℚ))) s1 le_rfl le_rfl (by norm_num)
      exact (bddSorted_append p01 s2 (by norm_num) (by norm_num)
        (by norm_num)).weaken le_rfl (by norm_num)
    · exact bddSorted_nil _ _
  have hS1 := bddSorted_seg (1/4) (7/20) (by norm_num) _
    (segMono _ h5) (segBnd _ hb5)
  have hS2 := bddSorted_seg (3/5) (1/4) (by norm_num) _
    (segMono _ h6) (segBnd _ hb6)
  have t1 : BddSorted (9/10) (19/20) [9/10, 19/20] :=
    bddSorted_pair (by norm_num) le_rfl le_rfl
  have t2 := bddSorted_append hS2 t1 (by norm_num) (by norm_num) (by norm_num)
  have t3 := bddSorted_append hS1 t2 (by norm_num) (by norm_num) (by norm_num)
  have t4 := bddSorted_append
    (bddSorted_pair (by norm_num : (1/5 : ℚ) ≤ 1/4) le_rfl le_rfl) t3
    (by norm_num) le_rfl (by norm_num)
  have t5 := bddSorted_append hM t4 (by norm_num) le_rfl (by norm_num)
  have t6 := bddSorted_append hA t5 (by norm_num) le_rfl (by norm_num)
  have t7 := bddSorted_append
    (bddSorted_pair (le_refl (0 : ℚ)) le_rfl le_rfl) t6
    le_rfl (by norm_num) (by norm_num)
  unfold happyBody
  simp only [List.append_assoc]
  exact t7

/-- Claim C2 (amended): over the callback snapshots of a single run in
which every per-phase progress input is non-decreasing and bounded by its
reported total (no mid-download retry resets the byte counter below a
value already reported, bytes never exceed the content-length, and
completed-mod counts never exceed `total_mods`), `overall_progress` is
monotone non-decreasing; it reaches 1.0 exactly when the final phase is
`Completed`; and `install()` returns true exactly in that case. -/
theorem c2_progress_monotone_amended (r : RunScript) (o : RunOutcome)
    (h1 : FracMono r.anomalyDl) (hb1 : FracBounded r.anomalyDl)
    (h2 : FracMono r.anomalyEx) (hb2 : FracBounded r.anomalyEx)
    (h3 : FracMono r.mo2Dl) (hb3 : FracBounded r.mo2Dl)
    (h4 : FracMono r.mo2Ex) (hb4 : FracBounded r.mo2Ex)
    (h5 : List.Chain' (· ≤ ·) r.modsDl)
    (hb5 : ∀ c ∈ r.modsDl, c ≤ r.totalMods)
    (h6 : List.Chain' (· ≤ ·) r.modsIn)
    (hb6 : ∀ c ∈ r.modsIn, c ≤ r.totalMods) :
    List.Chain' (· ≤ ·) (overallTrace r o)
    ∧ ((1 : ℚ) ∈ overallTrace r o ↔ o = .completed)
    ∧ (installReturns o = true ↔ o = .completed) := by
  have hBody := happyBody_bddSorted r h1 hb1 h2 hb2 h3 hb3 h4 hb4 h5 hb5
    h6 hb6
  have hChainAll : List.Chain' (· ≤ ·) (happyOveralls r) := by
    unfold happyOveralls
    rw [List.chain'_append]
    refine ⟨hBody.1, List.chain'_singleton 1, fun x hx y hy => ?_⟩
    have hx1 : x ∈ happyBody r := by
      obtain ⟨hne, rfl⟩ := List.mem_getLast?_eq_getLast hx
      exact List.getLast_mem hne
    have hy1 : y = 1 := by
      have hc := List.eq_cons_of_mem_head? hy
      have := congrArg List.head? hc
      simpa using this.symm
    rw [hy1]
    exact le_trans (hBody.2 x hx1).2 (by norm_num)
  cases o with
  | completed =>
    refine ⟨hChainAll, ?_, by simp [installReturns]⟩
    have hmem : (1 : ℚ) ∈ overallTrace r .completed := by
      show (1 : ℚ) ∈ happyBody r ++ [1]
      exact List.mem_append_right _ (by simp)
    simp [hmem]
  | failed k =>
    have htr : overallTrace r (RunOutcome.failed k)
        = (happyOveralls r).take (min k (happyBody r).length) := rfl
    refine ⟨?_, ?_, by simp [installReturns]⟩
    · rw [htr]
      exact hChainAll.prefix (List.take_prefix _ _)
    · have h1notin : (1 : ℚ) ∉ overallTrace r (RunOutcome.failed k) := by
        intro hmem
        rw [htr, happyOveralls,
          List.take_append_of_le_length (Nat.min_le_right _ _)] at hmem
        have h1mem : (1 : ℚ) ∈ happyBody r := List.mem_of_mem_take hmem
        have hle := (hBody.2 1 h1mem).2
        norm_num at hle
      simp [h1notin]

/-- Witness for C2 (amended) at a concrete input: a run with everything
skipped or empty, ending in `Completed`. -/
theorem c2_progress_monotone_amended_witness :
    List.Chain' (· ≤ ·)
      (overallTrace ⟨false, [], [], false, [], [], 0, [], []⟩ .completed)
    ∧ ((1 : ℚ) ∈ overallTrace ⟨false, [], [], false, [], [], 0, [], []⟩
        .completed ↔ RunOutcome.completed = RunOutcome.completed)
    ∧ (installReturns .completed = true
        ↔ RunOutcome.completed = RunOutcome.completed) :=
  c2_progress_monotone_amended ⟨false, [], [], false, [], [], 0, [], []⟩
    .completed List.chain'_nil (by simp [FracBounded])
    List.chain'_nil (by simp [FracBounded])
    List.chain'_nil (by simp [FracBounded])
    List.chain'_nil (by simp [FracBounded])
    List.chain'_nil (by simp) List.chain'_nil (by simp)

end AOE
